import Mathlib

/-!
Verification of the wikicategoryscraper core logic (wikiscraper.py):
the recursive section filter, the Python slice-based length bounding,
per-article extraction and the per-category corpus building loop.
-/

/-- A node of a Wikipedia article's section tree: title, text payload and
ordered child sections (wikipediaapi section objects as used by the code). -/
inductive WikiSection : Type where
  | mk : String → String → List WikiSection → WikiSection
deriving Repr

def WikiSection.title : WikiSection → String
  | .mk t _ _ => t

def WikiSection.text : WikiSection → String
  | .mk _ x _ => x

def WikiSection.sections : WikiSection → List WikiSection
  | .mk _ _ s => s

mutual
/-- The contribution of one section in the loop body of extracting_section
(wikiscraper.py lines 33-38): nothing when its title is excluded, otherwise
its text followed by the recursively extracted text of its subsections with
level incremented. -/
def sectionText (unnecessary_sections : List String) : WikiSection → Int → String
  | .mk title text subs, level =>
    if title ∈ unnecessary_sections then ""
    else text ++ extracting_section unnecessary_sections subs (level + 1)
/-- Embedding of extracting_section (wikiscraper.py lines 13-39): starts from
the empty string and appends each section's contribution in order. -/
def extracting_section (unnecessary_sections : List String) :
    List WikiSection → Int → String
  | [], _ => ""
  | s :: rest, level =>
    sectionText unnecessary_sections s level ++
      extracting_section unnecessary_sections rest level
end

/-- Python index clamping for a slice endpoint on a string of length len:
a negative index counts from the end (clamped below at 0), a nonnegative
index is clamped above at len. -/
def pyIndex (len : Nat) (i : Int) : Nat :=
  if i < 0 then ((len : Int) + i).toNat else min i.toNat len

/-- Embedding of the Python slice s[a:b] (step 1) on strings, as used at
wikiscraper.py line 158. -/
def pySlice (s : String) (a b : Int) : String :=
  let cs := s.toList
  let start := pyIndex cs.length a
  let stop := pyIndex cs.length b
  ((cs.drop start).take (stop - start)).asString

/-- Embedding of the Python substring test needle in haystack
(case-sensitive, used at wikiscraper.py line 94). -/
def strContains (haystack needle : String) : Bool :=
  haystack.toList.tails.any (fun t => needle.toList.isPrefixOf t)

/-- The per-article output record: the value stored under an article title,
with keys category, text and length (wikiscraper.py lines 161-163). -/
structure ArticleRecord where
  category : String
  text : String
  length : Nat
deriving Repr, DecidableEq

/-- A Wikipedia page as consumed by get_article and the member loop:
title, namespace, existence flag, summary and section tree. -/
structure WikipediaPage where
  title : String
  ns : Int
  page_exists : Bool
  summary : String
  sections : List WikiSection

/-- The part of a category page used by generate_categories: its member
listing (categorymembers.values(), in iteration order). -/
structure CategoryPage where
  categorymembers : List WikipediaPage

/-- The content-retrieval collaborator: resolves a subcategory name to its
category page (wikipedia.page at wikiscraper.py line 85). -/
structure Wikipedia where
  page : String → CategoryPage

/-- Embedding of get_article (wikiscraper.py lines 113-165): empty result
for a non-existing page; otherwise the summary concatenated with the filtered
section text, sliced to [min_article_length : max_article_length]; the empty
slice gives an empty dict, a non-empty one the record with its length. -/
def get_article (article : WikipediaPage) (category : String)
    (unnecessary_sections : List String)
    (min_article_length max_article_length : Int) : Option ArticleRecord :=
  if article.page_exists then
    let reduced_article :=
      article.summary ++ extracting_section unnecessary_sections article.sections 0
    let reduced_article := pySlice reduced_article min_article_length max_article_length
    if reduced_article = "" then none
    else some { category := category, text := reduced_article,
                length := reduced_article.length }
  else none

/-- Python dict assignment articles[article.title] = article_dict
(wikiscraper.py line 105) on an insertion-ordered association list: an
existing key keeps its position and gets the new value, a new key is
appended. -/
def dictInsert (articles : List (String × ArticleRecord)) (key : String)
    (value : ArticleRecord) : List (String × ArticleRecord) :=
  if articles.any (fun p => p.1 == key) then
    articles.map (fun p => if p.1 == key then (key, value) else p)
  else articles ++ [(key, value)]

/-- The inner member loop of generate_categories (wikiscraper.py lines
87-106): break once the counter reaches max_articles; skip members with
ns different from 0 or a list-indicator substring in the title; on a
non-empty get_article result insert the record and increment the counter. -/
def processMembers (category_name : String) (unnecessary_sections : List String)
    (max_articles min_article_length max_article_length : Int) :
    List WikipediaPage → List (String × ArticleRecord) → Int →
    List (String × ArticleRecord) × Int
  | [], articles, article_counter => (articles, article_counter)
  | article :: rest, articles, article_counter =>
    if article_counter ≥ max_articles then (articles, article_counter)
    else if article.ns == 0 && (!strContains article.title "Liste von" &&
        !strContains article.title "Liste d") then
      match get_article article category_name unnecessary_sections
          min_article_length max_article_length with
      | some article_dict =>
        processMembers category_name unnecessary_sections max_articles
          min_article_length max_article_length rest
          (dictInsert articles article.title article_dict) (article_counter + 1)
      | none =>
        processMembers category_name unnecessary_sections max_articles
          min_article_length max_article_length rest articles article_counter
    else
      processMembers category_name unnecessary_sections max_articles
        min_article_length max_article_length rest articles article_counter

/-- The subcategory loop of generate_categories (wikiscraper.py lines
82-106): break once the counter reaches max_articles, otherwise fetch the
subcategory page and run the member loop on its member listing. -/
def processSubcategories (wikipedia : Wikipedia) (category_name : String)
    (unnecessary_sections : List String)
    (max_articles min_article_length max_article_length : Int) :
    List String → List (String × ArticleRecord) → Int →
    List (String × ArticleRecord) × Int
  | [], articles, article_counter => (articles, article_counter)
  | subcategory :: rest, articles, article_counter =>
    if article_counter ≥ max_articles then (articles, article_counter)
    else
      let category := wikipedia.page subcategory
      let result := processMembers category_name unnecessary_sections max_articles
        min_article_length max_article_length category.categorymembers
        articles article_counter
      processSubcategories wikipedia category_name unnecessary_sections
        max_articles min_article_length max_article_length rest result.1 result.2

/-- Embedding of generate_categories (wikiscraper.py lines 42-110): visit
the categories in order, each with a fresh counter 0, accumulating into one
shared dict (the log line has no effect on the result). -/
def generate_categories (wikipedia : Wikipedia)
    (categories : List (String × List String))
    (unnecessary_sections : List String)
    (max_articles min_article_length max_article_length : Int) :
    List (String × ArticleRecord) :=
  categories.foldl
    (fun articles entry =>
      (processSubcategories wikipedia entry.1 unnecessary_sections max_articles
        min_article_length max_article_length entry.2 articles 0).1)
    []

mutual
/-- Spec-side definition (refinement target for the pre-order claim): a
node's own text followed by the pre-order text of its children. -/
def sectionPreorderText : WikiSection → String
  | .mk _ x subs => x ++ preorderText subs
/-- Spec-side definition: the concatenation of every node's text, parent
before children, siblings in order. -/
def preorderText : List WikiSection → String
  | [] => ""
  | s :: rest => sectionPreorderText s ++ preorderText rest
end

mutual
/-- Prune a single non-excluded node: keep title and text, prune the
children. -/
def pruneSection (ex : List String) : WikiSection → WikiSection
  | .mk t x subs => .mk t x (pruneSections ex subs)
/-- Spec-side definition: remove every node whose title is excluded together
with its entire subtree, at every depth, keeping sibling order. -/
def pruneSections (ex : List String) : List WikiSection → List WikiSection
  | [] => []
  | s :: rest =>
    if s.title ∈ ex then pruneSections ex rest
    else pruneSection ex s :: pruneSections ex rest
end

mutual
/-- A node together with all nodes of its subtree, in pre-order. -/
def sectionNodes : WikiSection → List WikiSection
  | .mk t x subs => .mk t x subs :: allNodes subs
/-- All nodes of a section forest, at every depth, in pre-order. -/
def allNodes : List WikiSection → List WikiSection
  | [] => []
  | s :: rest => sectionNodes s ++ allNodes rest
end

theorem string_empty_append : ∀ s : String, "" ++ s = s
  | ⟨_⟩ => rfl

mutual
theorem sectionText_level_eq (ex : List String) :
    ∀ (s : WikiSection) (l l' : Int), sectionText ex s l = sectionText ex s l'
  | .mk t x subs, l, l' => by
    simp only [sectionText]
    rw [extracting_section_level_eq ex subs (l + 1) (l' + 1)]
theorem extracting_section_level_eq (ex : List String) :
    ∀ (secs : List WikiSection) (l l' : Int),
      extracting_section ex secs l = extracting_section ex secs l'
  | [], _, _ => by simp only [extracting_section]
  | s :: rest, l, l' => by
    simp only [extracting_section]
    rw [sectionText_level_eq ex s l l', extracting_section_level_eq ex rest l l']
end

mutual
theorem sectionText_nil_exclusions :
    ∀ (s : WikiSection) (l : Int), sectionText [] s l = sectionPreorderText s
  | .mk t x subs, l => by
    simp only [sectionText, sectionPreorderText, List.not_mem_nil, if_false]
    rw [extracting_section_nil_exclusions subs (l + 1)]
theorem extracting_section_nil_exclusions :
    ∀ (secs : List WikiSection) (l : Int),
      extracting_section [] secs l = preorderText secs
  | [], _ => by simp only [extracting_section, preorderText]
  | s :: rest, l => by
    simp only [extracting_section, preorderText]
    rw [sectionText_nil_exclusions s l, extracting_section_nil_exclusions rest l]
end

mutual
theorem sectionText_prune (ex : List String) :
    ∀ (s : WikiSection) (l : Int), s.title ∉ ex →
      sectionText ex (pruneSection ex s) l = sectionText ex s l
  | .mk t x subs, l, h => by
    simp only [sectionText, pruneSection, if_neg h]
    rw [extracting_section_prune ex subs (l + 1)]
theorem extracting_section_prune (ex : List String) :
    ∀ (secs : List WikiSection) (l : Int),
      extracting_section ex (pruneSections ex secs) l = extracting_section ex secs l
  | [], _ => by simp only [pruneSections]
  | s :: rest, l => by
    by_cases h : s.title ∈ ex
    · rcases s with ⟨t, x, subs⟩
      simp only [pruneSections, if_pos h, extracting_section, sectionText]
      rw [if_pos (by simpa [WikiSection.title] using h), string_empty_append]
      exact extracting_section_prune ex rest l
    · simp only [pruneSections, if_neg h, extracting_section]
      rw [sectionText_prune ex s l h, extracting_section_prune ex rest l]
end

mutual
theorem sectionNodes_prune_no_excluded (ex : List String) :
    ∀ (s : WikiSection) (node : WikiSection), s.title ∉ ex →
      node ∈ sectionNodes (pruneSection ex s) → node.title ∉ ex
  | .mk t x subs, node, h, hmem => by
    simp only [pruneSection, sectionNodes, List.mem_cons] at hmem
    rcases hmem with rfl | hmem
    · simpa [WikiSection.title] using h
    · exact allNodes_prune_no_excluded ex subs node hmem
theorem allNodes_prune_no_excluded (ex : List String) :
    ∀ (secs : List WikiSection) (node : WikiSection),
      node ∈ allNodes (pruneSections ex secs) → node.title ∉ ex
  | [], node => by simp [pruneSections, allNodes]
  | s :: rest, node => by
    by_cases h : s.title ∈ ex
    · simp only [pruneSections, if_pos h]
      exact allNodes_prune_no_excluded ex rest node
    · simp only [pruneSections, if_neg h, allNodes, List.mem_append]
      rintro (hmem | hmem)
      · exact sectionNodes_prune_no_excluded ex s node h hmem
      · exact allNodes_prune_no_excluded ex rest node hmem
end

/-- Claim C9: for every exclusion list, every section tree, and any two
values of the level argument, extracting_section returns the same string:
the level parameter is threaded through the recursion but has no effect
whatsoever on the output. -/
theorem claim_C9_level_irrelevant (ex : List String) (secs : List WikiSection)
    (l l' : Int) : extracting_section ex secs l = extracting_section ex secs l' :=
  extracting_section_level_eq ex secs l l'

/-- Claim C5: for every section tree, extracting_section with an empty
exclusion set returns exactly the concatenation of every node's text in
pre-order traversal: each parent's text before its children's, siblings in
their given order. -/
theorem claim_C5_preorder (secs : List WikiSection) (l : Int) :
    extracting_section [] secs l = preorderText secs :=
  extracting_section_nil_exclusions secs l

/-- Claim C2: the result of extracting_section never contains the text of a
node whose title is excluded, nor of any descendant of such a node, at any
depth: the output coincides with the output on the pruned tree from which
every excluded node and its whole subtree have been removed, the pruned tree
contains no excluded node at any depth, and an excluded head section is
skipped while its siblings are still evaluated. -/
theorem claim_C2_exclusion_propagates :
    (∀ (ex : List String) (secs : List WikiSection) (l : Int),
      extracting_section ex secs l = extracting_section ex (pruneSections ex secs) l) ∧
    (∀ (ex : List String) (secs : List WikiSection) (node : WikiSection),
      node ∈ allNodes (pruneSections ex secs) → node.title ∉ ex) ∧
    (∀ (ex : List String) (t x : String) (subs rest : List WikiSection) (l : Int),
      t ∈ ex →
      extracting_section ex (WikiSection.mk t x subs :: rest) l =
        extracting_section ex rest l) :=
  ⟨fun ex secs l => (extracting_section_prune ex secs l).symm,
   fun ex secs node => allNodes_prune_no_excluded ex secs node,
   fun ex t x subs rest l h => by
    simp only [extracting_section, sectionText, if_pos h, string_empty_append]⟩

/-- Witness for claim C2: excluding the title B removes the section B with
its child C from the output while the sibling D is still evaluated. -/
theorem claim_C2_exclusion_propagates_witness :
    ("B" ∈ (["B"] : List String)) ∧
    extracting_section ["B"]
        [WikiSection.mk "B" "b" [WikiSection.mk "C" "c" []], WikiSection.mk "D" "d" []] 0 =
      extracting_section ["B"] [WikiSection.mk "D" "d" []] 0 :=
  ⟨by decide,
   claim_C2_exclusion_propagates.2.2 ["B"] "B" "b" [WikiSection.mk "C" "c" []]
     [WikiSection.mk "D" "d" []] 0 (by decide)⟩

/-- Spec-side definition (refinement target for the trimming claim): the
position-based slice keeping the characters from offset a (inclusive) to
offset b (exclusive), each offset clamped to the string's actual bounds. -/
def sliceSpec (s : String) (a b : Nat) : String :=
  ((s.toList.drop (min a s.toList.length)).take
    (min b s.toList.length - min a s.toList.length)).asString

theorem pySlice_nonneg_eq_sliceSpec (s : String) (a b : Int) (ha : 0 ≤ a)
    (hb : 0 ≤ b) : pySlice s a b = sliceSpec s a.toNat b.toNat := by
  simp only [pySlice, sliceSpec, pyIndex, if_neg (not_lt.mpr ha), if_neg (not_lt.mpr hb)]

theorem get_article_exists_eq (article : WikipediaPage) (category : String)
    (ex : List String) (minLen maxLen : Int) (h : article.page_exists = true) :
    get_article article category ex minLen maxLen =
      (if pySlice (article.summary ++ extracting_section ex article.sections 0)
          minLen maxLen = "" then none
       else some { category := category,
                   text := pySlice (article.summary ++
                     extracting_section ex article.sections 0) minLen maxLen,
                   length := (pySlice (article.summary ++
                     extracting_section ex article.sections 0) minLen maxLen).length }) := by
  simp only [get_article, h, if_true]

/-- Claim C1: for every page, exclusion list and integer bounds, the text
in the record computed by get_article for an existing page equals the
position-based slice raw[minLen:maxLen] of raw = summary concatenated with
the filtered section text (in that order, no separator); for nonnegative
bounds the slice agrees with the clamped character window of the spec, and
for raw text 0123456789 with minLen 5 and maxLen 8 the result is 567. -/
theorem claim_C1_slice_window :
    (∀ (article : WikipediaPage) (category : String) (ex : List String)
       (minLen maxLen : Int), article.page_exists = true →
      ∀ r, get_article article category ex minLen maxLen = some r →
        r.text = pySlice (article.summary ++ extracting_section ex article.sections 0)
          minLen maxLen) ∧
    (∀ (s : String) (a b : Int), 0 ≤ a → 0 ≤ b →
      pySlice s a b = sliceSpec s a.toNat b.toNat) ∧
    pySlice "0123456789" 5 8 = "567" := by
  refine ⟨?_, pySlice_nonneg_eq_sliceSpec, by decide⟩
  intro article category ex minLen maxLen h r hr
  rw [get_article_exists_eq article category ex minLen maxLen h] at hr
  split at hr
  · exact Option.noConfusion hr
  · obtain rfl := Option.some.inj hr
    rfl

/-- Witness for claim C1: an existing page with summary 0123456789, no
sections and window [5,8) yields the record with text 567. -/
theorem claim_C1_slice_window_witness :
    (WikipediaPage.mk "A" 0 true "0123456789" []).page_exists = true ∧
    get_article (WikipediaPage.mk "A" 0 true "0123456789" []) "Cat" [] 5 8 =
      some (ArticleRecord.mk "Cat" "567" 3) ∧
    (ArticleRecord.mk "Cat" "567" 3).text =
      pySlice ((WikipediaPage.mk "A" 0 true "0123456789" []).summary ++
        extracting_section [] (WikipediaPage.mk "A" 0 true "0123456789" []).sections 0)
        5 8 :=
  ⟨rfl, by decide,
   claim_C1_slice_window.1 (WikipediaPage.mk "A" 0 true "0123456789" []) "Cat" [] 5 8
     rfl (ArticleRecord.mk "Cat" "567" 3) (by decide)⟩

theorem pySlice_eq_empty (s : String) (a b : Int) (ha : 0 ≤ a) (hb : 0 ≤ b)
    (hba : b ≤ a) : pySlice s a b = "" := by
  simp only [pySlice, pyIndex, if_neg (not_lt.mpr ha), if_neg (not_lt.mpr hb)]
  have hab : b.toNat ≤ a.toNat := Int.toNat_le_toNat hba
  have h0 : min b.toNat s.toList.length - min a.toNat s.toList.length = 0 :=
    Nat.sub_eq_zero_of_le (min_le_min hab le_rfl)
  rw [h0, List.take_zero]
  rfl

theorem get_article_degenerate (article : WikipediaPage) (category : String)
    (ex : List String) (a b : Int) (ha : 0 ≤ a) (hb : 0 ≤ b) (hba : b ≤ a) :
    get_article article category ex a b = none := by
  cases hpe : article.page_exists with
  | false => simp [get_article, hpe]
  | true => simp [get_article, hpe, pySlice_eq_empty _ a b ha hb hba]

theorem processMembers_degenerate (cname : String) (ex : List String)
    (maxA a b : Int) (ha : 0 ≤ a) (hb : 0 ≤ b) (hba : b ≤ a) :
    ∀ (members : List WikipediaPage) (articles : List (String × ArticleRecord))
      (c : Int), processMembers cname ex maxA a b members articles c = (articles, c)
  | [], _, _ => rfl
  | m :: rest, articles, c => by
    simp only [processMembers, get_article_degenerate m cname ex a b ha hb hba]
    split
    · rfl
    · split
      · exact processMembers_degenerate cname ex maxA a b ha hb hba rest articles c
      · exact processMembers_degenerate cname ex maxA a b ha hb hba rest articles c

theorem processSubcategories_degenerate (w : Wikipedia) (cname : String)
    (ex : List String) (maxA a b : Int) (ha : 0 ≤ a) (hb : 0 ≤ b) (hba : b ≤ a) :
    ∀ (subs : List String) (articles : List (String × ArticleRecord)) (c : Int),
      processSubcategories w cname ex maxA a b subs articles c = (articles, c)
  | [], _, _ => rfl
  | s :: rest, articles, c => by
    simp only [processSubcategories,
      processMembers_degenerate cname ex maxA a b ha hb hba]
    split
    · rfl
    · exact processSubcategories_degenerate w cname ex maxA a b ha hb hba rest articles c

theorem generate_categories_degenerate (w : Wikipedia)
    (cats : List (String × List String)) (ex : List String) (maxA a b : Int)
    (ha : 0 ≤ a) (hb : 0 ≤ b) (hba : b ≤ a) :
    generate_categories w cats ex maxA a b = [] := by
  simp only [generate_categories]
  induction cats with
  | nil => rfl
  | cons e cats ih =>
    rw [List.foldl_cons, processSubcategories_degenerate w e.1 ex maxA a b ha hb hba]
    exact ih

/-- Claim C10: for every existing page and every pair of nonnegative bounds
with min_article_length at least max_article_length, the slice taken by
get_article is the empty string, so get_article returns the empty result
and no article is ever accepted into the Corpus under such parameters. -/
theorem claim_C10_degenerate_bounds :
    (∀ (s : String) (a b : Int), 0 ≤ a → 0 ≤ b → b ≤ a → pySlice s a b = "") ∧
    (∀ (article : WikipediaPage) (category : String) (ex : List String)
       (a b : Int), 0 ≤ a → 0 ≤ b → b ≤ a →
      get_article article category ex a b = none) ∧
    (∀ (w : Wikipedia) (cats : List (String × List String)) (ex : List String)
       (maxA a b : Int), 0 ≤ a → 0 ≤ b → b ≤ a →
      generate_categories w cats ex maxA a b = []) :=
  ⟨fun s a b ha hb hba => pySlice_eq_empty s a b ha hb hba,
   fun article category ex a b ha hb hba =>
     get_article_degenerate article category ex a b ha hb hba,
   fun w cats ex maxA a b ha hb hba =>
     generate_categories_degenerate w cats ex maxA a b ha hb hba⟩

/-- Witness for claim C10: bounds 5 and 3 slice any string to the empty
string and make get_article reject an existing nonempty page. -/
theorem claim_C10_degenerate_bounds_witness :
    ((0 : Int) ≤ 5 ∧ (0 : Int) ≤ 3 ∧ (3 : Int) ≤ 5) ∧
    pySlice "0123456789" 5 3 = "" ∧
    get_article (WikipediaPage.mk "A" 0 true "0123456789" []) "Cat" [] 5 3 = none :=
  ⟨by decide,
   claim_C10_degenerate_bounds.1 "0123456789" 5 3 (by decide) (by decide) (by decide),
   claim_C10_degenerate_bounds.2.1 (WikipediaPage.mk "A" 0 true "0123456789" [])
     "Cat" [] 5 3 (by decide) (by decide) (by decide)⟩

/-- Claim C7: for every page that does not exist, get_article returns the
empty result rather than raising a fault; in the member loop such an
article is silently excluded (the corpus is unchanged), the run continues
with the remaining members, and the per-category counter is not
incremented. -/
theorem claim_C7_nonexistent_page :
    (∀ (article : WikipediaPage) (category : String) (ex : List String)
       (a b : Int), article.page_exists = false →
      get_article article category ex a b = none) ∧
    (∀ (cname : String) (ex : List String) (maxA a b : Int)
       (article : WikipediaPage) (rest : List WikipediaPage)
       (articles : List (String × ArticleRecord)) (c : Int),
      article.page_exists = false → c < maxA →
      processMembers cname ex maxA a b (article :: rest) articles c =
        processMembers cname ex maxA a b rest articles c) :=
  ⟨fun article category ex a b hex => by simp [get_article, hex],
   fun cname ex maxA a b article rest articles c hex hc => by
    simp only [processMembers, get_article, hex, Bool.false_eq_true, if_false]
    rw [if_neg (not_le.mpr hc)]
    split <;> rfl⟩

/-- Witness for claim C7: a non-existing page with namespace 0 and an
eligible title leaves the corpus and the counter untouched. -/
theorem claim_C7_nonexistent_page_witness :
    (WikipediaPage.mk "Gone" 0 false "s" []).page_exists = false ∧
    ((0 : Int) < 5) ∧
    get_article (WikipediaPage.mk "Gone" 0 false "s" []) "Cat" [] 0 10000 = none ∧
    processMembers "Cat" [] 5 0 10000 [WikipediaPage.mk "Gone" 0 false "s" []] [] 0 =
      processMembers "Cat" [] 5 0 10000 [] [] 0 :=
  ⟨rfl, by decide,
   claim_C7_nonexistent_page.1 (WikipediaPage.mk "Gone" 0 false "s" []) "Cat" []
     0 10000 rfl,
   claim_C7_nonexistent_page.2 "Cat" [] 5 0 10000
     (WikipediaPage.mk "Gone" 0 false "s" []) [] [] 0 rfl (by decide)⟩

theorem processMembers_break (cname : String) (ex : List String) (maxA a b : Int)
    (members : List WikipediaPage) (articles : List (String × ArticleRecord))
    (c : Int) (h : c ≥ maxA) :
    processMembers cname ex maxA a b members articles c = (articles, c) := by
  cases members with
  | nil => rfl
  | cons m rest => simp only [processMembers, if_pos h]

theorem processSubcategories_break (w : Wikipedia) (cname : String)
    (ex : List String) (maxA a b : Int) (subs : List String)
    (articles : List (String × ArticleRecord)) (c : Int) (h : c ≥ maxA) :
    processSubcategories w cname ex maxA a b subs articles c = (articles, c) := by
  cases subs with
  | nil => rfl
  | cons s rest => simp only [processSubcategories, if_pos h]

theorem processMembers_counter_le (cname : String) (ex : List String)
    (maxA a b : Int) :
    ∀ (members : List WikipediaPage) (articles : List (String × ArticleRecord))
      (c : Int), c ≤ maxA →
      (processMembers cname ex maxA a b members articles c).2 ≤ maxA
  | [], _, c, h => h
  | m :: rest, articles, c, h => by
    simp only [processMembers]
    split
    · exact h
    · rename_i hlt
      split
      · cases hga : get_article m cname ex a b with
        | some d =>
          exact processMembers_counter_le cname ex maxA a b rest
            (dictInsert articles m.title d) (c + 1) (by omega)
        | none =>
          exact processMembers_counter_le cname ex maxA a b rest articles c h
      · exact processMembers_counter_le cname ex maxA a b rest articles c h

/-- A sample collaborator: every subcategory resolves to five eligible
existing member pages with two-character summaries. -/
def wikiFive : Wikipedia :=
  ⟨fun _ => ⟨[⟨"A1", 0, true, "a1", []⟩, ⟨"A2", 0, true, "a2", []⟩,
    ⟨"A3", 0, true, "a3", []⟩, ⟨"A4", 0, true, "a4", []⟩,
    ⟨"A5", 0, true, "a5", []⟩]⟩⟩

/-- Claim C3: the member and subcategory loops stop as soon as the counter
has reached max_articles, the counter never exceeds max_articles when it
starts below it, and on a category with one subcategory yielding five
eligible non-list articles with quota 2, exactly the first two are accepted
(final counter 2) and the remaining three never enter the corpus. -/
theorem claim_C3_per_category_quota :
    (∀ (cname : String) (ex : List String) (maxA a b : Int)
       (members : List WikipediaPage) (articles : List (String × ArticleRecord))
       (c : Int), c ≥ maxA →
      processMembers cname ex maxA a b members articles c = (articles, c)) ∧
    (∀ (w : Wikipedia) (cname : String) (ex : List String) (maxA a b : Int)
       (subs : List String) (articles : List (String × ArticleRecord))
       (c : Int), c ≥ maxA →
      processSubcategories w cname ex maxA a b subs articles c = (articles, c)) ∧
    (∀ (cname : String) (ex : List String) (maxA a b : Int)
       (members : List WikipediaPage) (articles : List (String × ArticleRecord))
       (c : Int), c ≤ maxA →
      (processMembers cname ex maxA a b members articles c).2 ≤ maxA) ∧
    (generate_categories wikiFive [("C", ["S"])] [] 2 0 10000 =
      [("A1", ⟨"C", "a1", 2⟩), ("A2", ⟨"C", "a2", 2⟩)] ∧
     processSubcategories wikiFive "C" [] 2 0 10000 ["S"] [] 0 =
      ([("A1", ⟨"C", "a1", 2⟩), ("A2", ⟨"C", "a2", 2⟩)], 2)) :=
  ⟨processMembers_break, processSubcategories_break, processMembers_counter_le,
   by decide, by decide⟩

/-- Witness for claim C3: with the counter already at the quota 2, the
member loop stops immediately and accepts nothing. -/
theorem claim_C3_per_category_quota_witness :
    ((2 : Int) ≥ 2) ∧
    processMembers "C" [] 2 0 10000 [WikipediaPage.mk "A3" 0 true "a3" []] [] 2 =
      ([], 2) :=
  ⟨by decide,
   claim_C3_per_category_quota.1 "C" [] 2 0 10000
     [WikipediaPage.mk "A3" 0 true "a3" []] [] 2 (by decide)⟩

/-- A well-formed article record: its length field counts the characters of
its text and the text is nonempty. -/
def recordOK (r : ArticleRecord) : Prop :=
  r.length = r.text.length ∧ r.text ≠ ""

theorem get_article_ok (article : WikipediaPage) (category : String)
    (ex : List String) (a b : Int) (r : ArticleRecord)
    (h : get_article article category ex a b = some r) : recordOK r := by
  cases hpe : article.page_exists with
  | false => simp [get_article, hpe] at h
  | true =>
    rw [get_article_exists_eq article category ex a b hpe] at h
    split at h
    · exact Option.noConfusion h
    · rename_i hne
      obtain rfl := Option.some.inj h
      exact ⟨rfl, hne⟩

theorem dictInsert_values_ok (P : ArticleRecord → Prop)
    (articles : List (String × ArticleRecord)) (k : String) (v : ArticleRecord)
    (hall : ∀ p ∈ articles, P p.2) (hv : P v) :
    ∀ p ∈ dictInsert articles k v, P p.2 := by
  intro p hp
  unfold dictInsert at hp
  split at hp
  · obtain ⟨q, hq, hpq⟩ := List.mem_map.mp hp
    split at hpq
    · subst hpq; exact hv
    · subst hpq; exact hall q hq
  · rcases List.mem_append.mp hp with h | h
    · exact hall p h
    · obtain rfl := List.mem_singleton.mp h
      exact hv

theorem processMembers_values_ok (cname : String) (ex : List String)
    (maxA a b : Int) :
    ∀ (members : List WikipediaPage) (articles : List (String × ArticleRecord))
      (c : Int), (∀ p ∈ articles, recordOK p.2) →
      ∀ p ∈ (processMembers cname ex maxA a b members articles c).1, recordOK p.2
  | [], _, _, hall => hall
  | m :: rest, articles, c, hall => by
    simp only [processMembers]
    split
    · exact hall
    · split
      · cases hga : get_article m cname ex a b with
        | some d =>
          exact processMembers_values_ok cname ex maxA a b rest
            (dictInsert articles m.title d) (c + 1)
            (dictInsert_values_ok recordOK articles m.title d hall
              (get_article_ok m cname ex a b d hga))
        | none =>
          exact processMembers_values_ok cname ex maxA a b rest articles c hall
      · exact processMembers_values_ok cname ex maxA a b rest articles c hall

theorem processSubcategories_values_ok (w : Wikipedia) (cname : String)
    (ex : List String) (maxA a b : Int) :
    ∀ (subs : List String) (articles : List (String × ArticleRecord))
      (c : Int), (∀ p ∈ articles, recordOK p.2) →
      ∀ p ∈ (processSubcategories w cname ex maxA a b subs articles c).1,
        recordOK p.2
  | [], _, _, hall => hall
  | s :: rest, articles, c, hall => by
    simp only [processSubcategories]
    split
    · exact hall
    · exact processSubcategories_values_ok w cname ex maxA a b rest _ _
        (processMembers_values_ok cname ex maxA a b
          (w.page s).categorymembers articles c hall)

theorem generate_categories_values_ok (w : Wikipedia) (ex : List String)
    (maxA a b : Int) :
    ∀ (cats : List (String × List String))
      (articles : List (String × ArticleRecord)),
      (∀ p ∈ articles, recordOK p.2) →
      ∀ p ∈ cats.foldl
        (fun articles entry =>
          (processSubcategories w entry.1 ex maxA a b entry.2 articles 0).1)
        articles, recordOK p.2
  | [], _, hall => hall
  | e :: cats, articles, hall => by
    rw [List.foldl_cons]
    exact generate_categories_values_ok w ex maxA a b cats _
      (processSubcategories_values_ok w e.1 ex maxA a b e.2 articles 0 hall)

/-- Claim C4: every record in the corpus returned by generate_categories has
a length field equal to the character count of its text field, and no record
with empty trimmed text is ever inserted. -/
theorem claim_C4_record_invariant (w : Wikipedia)
    (cats : List (String × List String)) (ex : List String) (maxA a b : Int)
    (p : String × ArticleRecord)
    (hp : p ∈ generate_categories w cats ex maxA a b) :
    p.2.length = p.2.text.length ∧ p.2.text ≠ "" :=
  generate_categories_values_ok w ex maxA a b cats [] (by simp) p hp

/-- Witness for claim C4: the first record of the sample five-article run
has length 2, the character count of its two-character text. -/
theorem claim_C4_record_invariant_witness :
    ("A1", ArticleRecord.mk "C" "a1" 2) ∈
      generate_categories wikiFive [("C", ["S"])] [] 2 0 10000 ∧
    ((ArticleRecord.mk "C" "a1" 2).length = (ArticleRecord.mk "C" "a1" 2).text.length ∧
      (ArticleRecord.mk "C" "a1" 2).text ≠ "") :=
  ⟨by decide,
   claim_C4_record_invariant wikiFive [("C", ["S"])] [] 2 0 10000
     ("A1", ArticleRecord.mk "C" "a1" 2) (by decide)⟩

theorem lookup_cons_pair (t k : String) (v : ArticleRecord)
    (l : List (String × ArticleRecord)) :
    List.lookup t ((k, v) :: l) = if t = k then some v else List.lookup t l := by
  rw [List.lookup_cons]
  by_cases h : t = k
  · simp [h]
  · simp [h, beq_false_of_ne h]

theorem lookup_replace_of_any (k : String) (v : ArticleRecord) :
    ∀ (articles : List (String × ArticleRecord)),
      articles.any (fun p => p.1 == k) = true →
      (articles.map (fun p => if p.1 == k then (k, v) else p)).lookup k = some v
  | [], h => by simp at h
  | ⟨qk, qv⟩ :: rest, h => by
    simp only [List.map_cons]
    by_cases hq : qk = k
    · rw [if_pos (by simpa using hq), lookup_cons_pair, if_pos rfl]
    · rw [if_neg (by simpa using hq), lookup_cons_pair,
        if_neg (fun hh => hq hh.symm)]
      apply lookup_replace_of_any k v rest
      simp only [List.any_cons, Bool.or_eq_true] at h
      rcases h with h1 | h1
      · exact absurd (by simpa using h1) hq
      · exact h1

theorem lookup_append_single (k : String) (v : ArticleRecord) :
    ∀ (articles : List (String × ArticleRecord)),
      articles.any (fun p => p.1 == k) = false →
      (articles ++ [(k, v)]).lookup k = some v
  | [], _ => by simp [lookup_cons_pair]
  | ⟨qk, qv⟩ :: rest, h => by
    simp only [List.any_cons, Bool.or_eq_false_iff] at h
    obtain ⟨h1, h2⟩ := h
    rw [List.cons_append, lookup_cons_pair, if_neg (Ne.symm (by simpa using h1))]
    exact lookup_append_single k v rest h2

theorem lookup_dictInsert_self (articles : List (String × ArticleRecord))
    (k : String) (v : ArticleRecord) :
    (dictInsert articles k v).lookup k = some v := by
  unfold dictInsert
  split
  · rename_i h
    exact lookup_replace_of_any k v articles h
  · rename_i h
    exact lookup_append_single k v articles (Bool.eq_false_iff.mpr h)

theorem lookup_replace_cases (k t : String) (v r : ArticleRecord) :
    ∀ (articles : List (String × ArticleRecord)),
      (articles.map (fun p => if p.1 == k then (k, v) else p)).lookup t = some r →
      (t = k ∧ r = v) ∨ articles.lookup t = some r
  | [], h => by simp at h
  | ⟨qk, qv⟩ :: rest, h => by
    simp only [List.map_cons] at h
    by_cases hq : qk = k
    · rw [if_pos (by simpa using hq), lookup_cons_pair] at h
      by_cases ht : t = k
      · rw [if_pos ht] at h
        exact Or.inl ⟨ht, (Option.some.inj h).symm⟩
      · rw [if_neg ht] at h
        rcases lookup_replace_cases k t v r rest h with h1 | h1
        · exact Or.inl h1
        · right
          rw [lookup_cons_pair, if_neg (hq ▸ ht)]
          exact h1
    · rw [if_neg (by simpa using hq), lookup_cons_pair] at h
      by_cases ht : t = qk
      · rw [if_pos ht] at h
        right
        rw [lookup_cons_pair, if_pos ht]
        exact h
      · rw [if_neg ht] at h
        rcases lookup_replace_cases k t v r rest h with h1 | h1
        · exact Or.inl h1
        · right
          rw [lookup_cons_pair, if_neg ht]
          exact h1

theorem lookup_append_cases (k t : String) (v r : ArticleRecord) :
    ∀ (articles : List (String × ArticleRecord)),
      (articles ++ [(k, v)]).lookup t = some r →
      (t = k ∧ r = v) ∨ articles.lookup t = some r
  | [], h => by
    rw [List.nil_append, lookup_cons_pair] at h
    split at h
    · exact Or.inl ⟨by assumption, (Option.some.inj h).symm⟩
    · exact Option.noConfusion (h.symm.trans List.lookup_nil)
  | ⟨qk, qv⟩ :: rest, h => by
    rw [List.cons_append, lookup_cons_pair] at h
    by_cases ht : t = qk
    · rw [if_pos ht] at h
      right
      rw [lookup_cons_pair, if_pos ht]
      exact h
    · rw [if_neg ht] at h
      rcases lookup_append_cases k t v r rest h with h1 | h1
      · exact Or.inl h1
      · right
        rw [lookup_cons_pair, if_neg ht]
        exact h1

theorem lookup_dictInsert_cases (articles : List (String × ArticleRecord))
    (k t : String) (v r : ArticleRecord)
    (h : (dictInsert articles k v).lookup t = some r) :
    (t = k ∧ r = v) ∨ articles.lookup t = some r := by
  unfold dictInsert at h
  split at h
  · exact lookup_replace_cases k t v r articles h
  · exact lookup_append_cases k t v r articles h

theorem processMembers_provenance (cname : String) (ex : List String)
    (maxA a b : Int) :
    ∀ (members : List WikipediaPage) (articles : List (String × ArticleRecord))
      (c : Int) (t : String) (r : ArticleRecord),
      (processMembers cname ex maxA a b members articles c).1.lookup t = some r →
      articles.lookup t = some r ∨
        ∃ p ∈ members, p.title = t ∧ p.ns = 0 ∧
          strContains p.title "Liste von" = false ∧
          strContains p.title "Liste d" = false
  | [], _, _, _, _ => fun h => Or.inl h
  | m :: rest, articles, c, t, r => by
    intro h
    simp only [processMembers] at h
    split at h
    · exact Or.inl h
    · split at h
      · rename_i hc
        simp only [Bool.and_eq_true, Bool.not_eq_true', beq_iff_eq] at hc
        cases hga : get_article m cname ex a b with
        | some d =>
          rw [hga] at h
          rcases processMembers_provenance cname ex maxA a b rest
            (dictInsert articles m.title d) (c + 1) t r h with h1 | h1
          · rcases lookup_dictInsert_cases articles m.title t d r h1 with ⟨ht, _⟩ | h2
            · exact Or.inr ⟨m, List.mem_cons_self m rest,
                ht.symm, hc.1, hc.2.1, hc.2.2⟩
            · exact Or.inl h2
          · obtain ⟨p, hp, hx⟩ := h1
            exact Or.inr ⟨p, List.mem_cons_of_mem m hp, hx⟩
        | none =>
          rw [hga] at h
          rcases processMembers_provenance cname ex maxA a b rest articles c t r h
            with h1 | h1
          · exact Or.inl h1
          · obtain ⟨p, hp, hx⟩ := h1
            exact Or.inr ⟨p, List.mem_cons_of_mem m hp, hx⟩
      · rcases processMembers_provenance cname ex maxA a b rest articles c t r h
          with h1 | h1
        · exact Or.inl h1
        · obtain ⟨p, hp, hx⟩ := h1
          exact Or.inr ⟨p, List.mem_cons_of_mem m hp, hx⟩

theorem processSubcategories_provenance (w : Wikipedia) (cname : String)
    (ex : List String) (maxA a b : Int) :
    ∀ (subs : List String) (articles : List (String × ArticleRecord))
      (c : Int) (t : String) (r : ArticleRecord),
      (processSubcategories w cname ex maxA a b subs articles c).1.lookup t =
        some r →
      articles.lookup t = some r ∨
        ∃ sub ∈ subs, ∃ p ∈ (w.page sub).categorymembers, p.title = t ∧
          p.ns = 0 ∧ strContains p.title "Liste von" = false ∧
          strContains p.title "Liste d" = false
  | [], _, _, _, _ => fun h => Or.inl h
  | s :: rest, articles, c, t, r => by
    intro h
    simp only [processSubcategories] at h
    split at h
    · exact Or.inl h
    · rcases processSubcategories_provenance w cname ex maxA a b rest _ _ t r h
        with h1 | h1
      · rcases processMembers_provenance cname ex maxA a b
          (w.page s).categorymembers articles c t r h1 with h2 | h2
        · exact Or.inl h2
        · obtain ⟨p, hp, hx⟩ := h2
          exact Or.inr ⟨s, List.mem_cons_self s rest, p, hp, hx⟩
      · obtain ⟨sub, hsub, hx⟩ := h1
        exact Or.inr ⟨sub, List.mem_cons_of_mem s hsub, hx⟩

theorem generate_categories_provenance (w : Wikipedia) (ex : List String)
    (maxA a b : Int) :
    ∀ (cats : List (String × List String))
      (articles : List (String × ArticleRecord)) (t : String) (r : ArticleRecord),
      (cats.foldl
        (fun articles entry =>
          (processSubcategories w entry.1 ex maxA a b entry.2 articles 0).1)
        articles).lookup t = some r →
      articles.lookup t = some r ∨
        ∃ entry ∈ cats, ∃ sub ∈ entry.2, ∃ p ∈ (w.page sub).categorymembers,
          p.title = t ∧ p.ns = 0 ∧ strContains p.title "Liste von" = false ∧
          strContains p.title "Liste d" = false
  | [], _, _, _ => fun h => Or.inl h
  | e :: cats, articles, t, r => by
    intro h
    rw [List.foldl_cons] at h
    rcases generate_categories_provenance w ex maxA a b cats _ t r h with h1 | h1
    · rcases processSubcategories_provenance w e.1 ex maxA a b e.2 articles 0 t r h1
        with h2 | h2
      · exact Or.inl h2
      · obtain ⟨sub, hsub, hx⟩ := h2
        exact Or.inr ⟨e, List.mem_cons_self e cats, sub, hsub, hx⟩
    · obtain ⟨entry, hentry, hx⟩ := h1
      exact Or.inr ⟨entry, List.mem_cons_of_mem e hentry, hx⟩

/-- Claim C6: a title is mapped in the corpus returned by generate_categories
only if some crawled member page carries that title, its namespace is 0
(an ordinary content page), and its title contains neither of the two
case-sensitive list-indicator substrings. -/
theorem claim_C6_only_eligible_accepted (w : Wikipedia)
    (cats : List (String × List String)) (ex : List String) (maxA a b : Int)
    (t : String) (r : ArticleRecord)
    (h : (generate_categories w cats ex maxA a b).lookup t = some r) :
    ∃ entry ∈ cats, ∃ sub ∈ entry.2, ∃ p ∈ (w.page sub).categorymembers,
      p.title = t ∧ p.ns = 0 ∧ strContains p.title "Liste von" = false ∧
      strContains p.title "Liste d" = false := by
  rcases generate_categories_provenance w ex maxA a b cats [] t r h with h1 | h1
  · exact Option.noConfusion (h1.symm.trans List.lookup_nil)
  · exact h1

/-- Witness for claim C6: in the sample five-article run the accepted title
A1 is backed by an eligible member page. -/
theorem claim_C6_only_eligible_accepted_witness :
    (generate_categories wikiFive [("C", ["S"])] [] 2 0 10000).lookup "A1" =
      some (ArticleRecord.mk "C" "a1" 2) ∧
    (∃ entry ∈ [("C", ["S"])], ∃ sub ∈ entry.2,
      ∃ p ∈ (wikiFive.page sub).categorymembers, p.title = "A1" ∧ p.ns = 0 ∧
        strContains p.title "Liste von" = false ∧
        strContains p.title "Liste d" = false) :=
  ⟨by decide,
   claim_C6_only_eligible_accepted wikiFive [("C", ["S"])] [] 2 0 10000 "A1"
     (ArticleRecord.mk "C" "a1" 2) (by decide)⟩

/-- A sample collaborator where two different subcategories both yield a
member page titled Dup, with different summaries. -/
def wikiDup : Wikipedia :=
  ⟨fun s => if s = "S1" then ⟨[⟨"Dup", 0, true, "t1", []⟩]⟩
   else ⟨[⟨"Dup", 0, true, "t2", []⟩]⟩⟩

/-- Claim C8: the dict assignment maps the key to exactly the new record
(overwrite, not merge), and when the same title Dup is accepted under the
two categories Cat1 and Cat2 in one run, the corpus holds exactly one entry
for Dup: the record of the later category Cat2. -/
theorem claim_C8_last_writer_wins :
    (∀ (articles : List (String × ArticleRecord)) (k : String) (v : ArticleRecord),
      (dictInsert articles k v).lookup k = some v) ∧
    generate_categories wikiDup [("Cat1", ["S1"]), ("Cat2", ["S2"])] [] 10 0 10000 =
      [("Dup", ⟨"Cat2", "t2", 2⟩)] :=
  ⟨lookup_dictInsert_self, by decide⟩
